import Mathlib

/-!
Verification of the order-state synchronization engine of
`src/otc/js/services/WebSocket.js` (class `WebSocketService`).

The JavaScript is shallowly embedded:
* a JS `Map` becomes an association list with `Map.set`/`Map.get`/
  `Map.delete` semantics (`mapSet`, `mapGet`, `mapDelete`);
* addresses and token addresses become `Nat` (`0` is
  `ethers.constants.AddressZero`) since the code only compares them;
* calls into the contract become explicit oracles
  (`Nat → Option ChainOrder` for `contract.orders(i)`, an
  `AttemptOutcome` stream for the connect/sync environment);
* `notifySubscribers` publications are reified as a `Published` list,
  and the dispatcher itself is modelled separately over callbacks that
  may throw (`Except`);
* JS object aliasing (records held by reference in the cache and in
  arrays returned by `getOrders`) is modelled by a ref/store heap
  (`HeapCache`) where it matters.
-/

namespace LiberdusWS

/-- Order status enum; `syncAllOrders` decodes the on-chain numeric status
through the array literal. -/
inductive OrderStatus where
  | Active
  | Filled
  | Canceled
deriving DecidableEq, Repr

/-- The order objects the service stores in `this.orderCache`. The
full-sync path additionally stores a `tries` field which the
`OrderCreated` path does not, hence `Option`. -/
structure OrderRecord where
  id : Nat
  maker : Nat
  taker : Nat
  sellToken : Nat
  sellAmount : Nat
  buyToken : Nat
  buyAmount : Nat
  timestamp : Nat
  orderCreationFee : Nat
  status : OrderStatus
  tries : Option Nat
deriving DecidableEq, Repr

/-- A raw order struct as returned by `contract.orders(i)`. -/
structure ChainOrder where
  maker : Nat
  taker : Nat
  sellToken : Nat
  sellAmount : Nat
  buyToken : Nat
  buyAmount : Nat
  timestamp : Nat
  status : Nat
  orderCreationFee : Nat
  tries : Nat
deriving DecidableEq, Repr

/-- JS `Map.get`: value at the (unique) key, if present. -/
def mapGet {κ α : Type} [DecidableEq κ] : List (κ × α) → κ → Option α
  | [], _ => none
  | (k0, v0) :: rest, k => if k0 = k then some v0 else mapGet rest k

/-- JS `Map.set`: overwrite the entry in place if the key is present,
otherwise append (insertion order preserved). -/
def mapSet {κ α : Type} [DecidableEq κ] : List (κ × α) → κ → α → List (κ × α)
  | [], k, v => [(k, v)]
  | (k0, v0) :: rest, k, v =>
      if k0 = k then (k, v) :: rest else (k0, v0) :: mapSet rest k v

/-- JS `Map.delete`: remove the (unique) entry for the key, no-op if
absent. -/
def mapDelete {κ α : Type} [DecidableEq κ] : List (κ × α) → κ → List (κ × α)
  | [], _ => []
  | (k0, v0) :: rest, k => if k0 = k then rest else (k0, v0) :: mapDelete rest k

/-- `this.orderCache`: a `Map` from numeric order id to order record. -/
abbrev Cache := List (Nat × OrderRecord)

/-- One `notifySubscribers(eventName, data)` call, reified as data. -/
inductive Published where
  | orderCreated (record : OrderRecord)
  | orderFilled (record : OrderRecord)
  | orderCanceled (record : OrderRecord)
  | syncComplete (snapshot : List (Nat × OrderRecord))
  | ordersUpdated (orders : List OrderRecord)
deriving DecidableEq, Repr

/-- Positional arguments of a decoded `OrderCreated` event (the trailing
event-metadata object carries no information the handler uses). -/
structure CreatedArgs where
  orderId : Nat
  maker : Nat
  taker : Nat
  sellToken : Nat
  sellAmount : Nat
  buyToken : Nat
  buyAmount : Nat
  timestamp : Nat
  fee : Nat
deriving DecidableEq, Repr

/-- The `OrderCreated` handler: build an `Active` record from the event
fields and `orderCache.set` it unconditionally, then notify. -/
def handleOrderCreated (c : Cache) (a : CreatedArgs) : Cache × List Published :=
  let orderData : OrderRecord :=
    { id := a.orderId, maker := a.maker, taker := a.taker,
      sellToken := a.sellToken, sellAmount := a.sellAmount,
      buyToken := a.buyToken, buyAmount := a.buyAmount,
      timestamp := a.timestamp, orderCreationFee := a.fee,
      status := OrderStatus.Active, tries := none }
  (mapSet c a.orderId orderData, [Published.orderCreated orderData])

/-- The `OrderFilled` handler: if the id is cached, set its status to
`Filled` and notify; otherwise do nothing. -/
def handleOrderFilled (c : Cache) (orderId : Nat) : Cache × List Published :=
  match mapGet c orderId with
  | some order =>
      let updated := { order with status := OrderStatus.Filled }
      (mapSet c orderId updated, [Published.orderFilled updated])
  | none => (c, [])

/-- The `OrderCanceled` handler: if the id is cached, set its status to
`Canceled` (via `updateOrderCache`) and notify; otherwise do nothing. -/
def handleOrderCanceled (c : Cache) (orderId : Nat) : Cache × List Published :=
  match mapGet c orderId with
  | some order =>
      let updated := { order with status := OrderStatus.Canceled }
      (mapSet c orderId updated, [Published.orderCanceled updated])
  | none => (c, [])

/-- `getOrders(filterStatus = null)`: `Array.from(cache.values())`,
optionally filtered by status. -/
def getOrders (c : Cache) (filterStatus : Option OrderStatus) : List OrderRecord :=
  let orders := c.map (fun p => p.2)
  match filterStatus with
  | some st => orders.filter (fun o => o.status = st)
  | none => orders

/-- `removeOrder(orderId)`: `orderCache.delete(orderId)`. -/
def removeOrder (c : Cache) (orderId : Nat) : Cache :=
  mapDelete c orderId

/-- `removeOrders(orderIds)`: warn-and-return on a non-array argument
(`none` here), otherwise delete each id and notify `ordersUpdated` with
the remaining full list. -/
def removeOrders (c : Cache) (orderIds : Option (List Nat)) : Cache × List Published :=
  match orderIds with
  | none => (c, [])
  | some ids =>
      let c2 := ids.foldl mapDelete c
      (c2, [Published.ordersUpdated (getOrders c2 none)])

/-- Status decoding `['Active', 'Filled', 'Canceled'][order.status]` used
by `syncAllOrders`; the surrounding guard `order.status === 0` means only
index `0` is ever taken there, so the out-of-range default is inert. -/
def statusFromChain : Nat → OrderStatus
  | 0 => OrderStatus.Active
  | 1 => OrderStatus.Filled
  | 2 => OrderStatus.Canceled
  | _ => OrderStatus.Active

/-- The record `syncAllOrders` builds for position `i` from a fetched
chain order. -/
def chainToOrderData (i : Nat) (o : ChainOrder) : OrderRecord :=
  { id := i, maker := o.maker, taker := o.taker,
    sellToken := o.sellToken, sellAmount := o.sellAmount,
    buyToken := o.buyToken, buyAmount := o.buyAmount,
    timestamp := o.timestamp, status := statusFromChain o.status,
    orderCreationFee := o.orderCreationFee, tries := some o.tries }

/-- One iteration of the `syncAllOrders` loop body at index `i`:
a failed `contract.orders(i)` call (`none`) is logged and skipped, and
only orders with a non-zero maker and status `0` (Active) are cached. -/
def syncStep (fetch : Nat → Option ChainOrder) (c : Cache) (i : Nat) : Cache :=
  match fetch i with
  | none => c
  | some o =>
      if o.maker ≠ 0 ∧ o.status = 0 then mapSet c i (chainToOrderData i o) else c

/-- The `syncAllOrders` loop `for i in [0, bound)` starting from the
cleared cache. -/
def syncBuild (fetch : Nat → Option ChainOrder) (bound : Nat) : Cache :=
  (List.range bound).foldl (syncStep fetch) []

/-- `syncAllOrders(contract)`. `outerOk = false` models an exception
raised by the body outside the per-id and bound try/catches (the outer
catch clears the cache and publishes an empty snapshot); `bound?` is the
`nextOrderId()` result, `none` meaning the call failed and the default
`0` is used. The starting cache is cleared in every path. -/
def syncAllOrders (outerOk : Bool) (bound? : Option Nat)
    (fetch : Nat → Option ChainOrder) (_c : Cache) : Cache × List Published :=
  if outerOk then
    let bound := bound?.getD 0
    let c1 := syncBuild fetch bound
    (c1, [Published.syncComplete c1])
  else
    ([], [Published.syncComplete []])

/-- A callback registered through `subscribe`: an identity plus a body
that may throw (`Except.error` models a thrown JS exception). -/
structure Callback (α : Type) where
  id : Nat
  run : α → Except String Unit

/-- The `try { callback(data) } catch (error) { debug(...) }` wrapper
around one subscriber call: a thrown error is caught and logged
(`some error`), a normal return logs nothing (`none`). -/
def catchResult {α : Type} (cb : Callback α) (data : α) : Option String :=
  match cb.run data with
  | Except.ok _ => none
  | Except.error e => some e

/-- `notifySubscribers(eventName, data)`: look the event name up in the
subscriber map; with no entry, do nothing; otherwise call every
registered callback under the catch wrapper. The result is the
invocation log: one entry per callback, carrying its caught error if it
threw. -/
def notifySubscribers {α : Type} (subscribers : List (String × List (Callback α)))
    (eventName : String) (data : α) : List (Nat × Option String) :=
  match mapGet subscribers eventName with
  | some cbs => cbs.map (fun cb => (cb.id, catchResult cb data))
  | none => []

/-- Result of `checkCleanupEligibility`: either `{ isEligible, order }`
from the happy path or `{ isEligible: false, error }` from the catch. -/
inductive CleanupResult where
  | success (isEligible : Bool) (order : ChainOrder)
  | failure (isEligible : Bool) (error : String)
deriving DecidableEq, Repr

/-- `totalExpiry = 14 * 24 * 60 * 60`, 14 days in seconds. -/
def totalExpiry : Nat := 14 * 24 * 60 * 60

/-- `checkCleanupEligibility(orderId)`: fetch the record
(`contract.orders(orderId)` modelled as an `Except`-valued oracle) and
compare `currentTime - orderTime > totalExpiry` over JS numbers
(hence `Int`: the difference may be negative); a fetch failure is caught
and returned as `{ isEligible: false, error }`. -/
def checkCleanupEligibility (fetch : Nat → Except String ChainOrder)
    (currentTime : Nat) (orderId : Nat) : CleanupResult :=
  match fetch orderId with
  | Except.ok order =>
      CleanupResult.success
        (decide (((currentTime : Int) - (order.timestamp : Int)) > (totalExpiry : Int)))
        order
  | Except.error e => CleanupResult.failure false e

/-! ### Connection lifecycle: `initialize` / `reconnect`

`initialize` and `reconnect` are mutually recursive in the source; the
recursion is bounded because `reconnect` gives up once
`reconnectAttempts >= maxReconnectAttempts`. The embedding flattens the
mutual recursion into one structurally recursive function on a fuel
argument; fuel is an embedding artifact and the fuel-exhausted branch
coincides with the give-up branch, which is only reachable when fuel is
set below the remaining attempt budget. The environment `env` maps the
index of each `initialize` invocation to the outcome of its connection
attempt: either the provider setup / `provider.ready` throws
(`connectFail`, landing in the catch that calls `reconnect`), or the
provider comes up and the sync runs with the given contract responses
(`connectOk`). -/

/-- The fields of `WebSocketService` that the connection lifecycle and
cache operations touch. The subscriber registry is tracked by callback
ids; `initialize`/`reconnect` never modify it. -/
structure ConnState where
  reconnectAttempts : Nat
  maxReconnectAttempts : Nat
  reconnectDelay : Nat
  orderCache : Cache
  subscribers : List (String × List Nat)
  isInitialized : Bool
deriving DecidableEq, Repr

/-- Outcome of one connection attempt. -/
inductive AttemptOutcome where
  | connectFail
  | connectOk (outerOk : Bool) (bound? : Option Nat) (fetch : Nat → Option ChainOrder)

/-- Result of `initialize`/`reconnect`: the returned boolean, the list of
backoff delays awaited (in order), the publications made, and the final
service state. -/
abbrev ConnResult := Bool × List Nat × List Published × ConnState

/-- The `reconnect()` body: give up with `false` when the attempt budget
is spent; otherwise increment the counter, wait the exponential-backoff
delay `reconnectDelay * 2 ^ (reconnectAttempts - 1)` (computed after the
increment, as in the source) and re-invoke `initialize` (the `recur`
argument). -/
def reconnectStep (s : ConnState) (recur : ConnState → ConnResult) : ConnResult :=
  if s.reconnectAttempts ≥ s.maxReconnectAttempts then (false, [], [], s)
  else
    let s1 := { s with reconnectAttempts := s.reconnectAttempts + 1 }
    let delay := s.reconnectDelay * 2 ^ (s1.reconnectAttempts - 1)
    let r := recur s1
    (r.1, delay :: r.2.1, r.2.2.1, r.2.2.2)

/-- The `initialize()` body: return `true` at once when already
initialized; on a successful attempt run `syncAllOrders`, set the
initialized flag and reset the attempt counter; on a thrown connection
error run the catch path (the `onFail` argument, `return
this.reconnect()` in the source). -/
def initStep (env : Nat → AttemptOutcome) (k : Nat) (s : ConnState)
    (onFail : ConnState → ConnResult) : ConnResult :=
  if s.isInitialized then (true, [], [], s)
  else
    match env k with
    | AttemptOutcome.connectOk outerOk bound? fetch =>
        let sync := syncAllOrders outerOk bound? fetch s.orderCache
        (true, [], sync.2,
          { s with orderCache := sync.1, isInitialized := true, reconnectAttempts := 0 })
    | AttemptOutcome.connectFail => onFail s

/-- `initialize()` tied to `reconnect()`: the mutual recursion of the
source, made structural on a fuel bound. Exhausted fuel behaves as the
give-up branch; it is an embedding artifact, unreachable whenever `fuel`
is at least the remaining attempt budget. -/
def initAttempt (env : Nat → AttemptOutcome) : Nat → Nat → ConnState → ConnResult
  | 0, k, s => initStep env k s (fun s2 => (false, [], [], s2))
  | fuel + 1, k, s =>
      initStep env k s (fun s2 => reconnectStep s2 (initAttempt env fuel (k + 1)))

/-- `reconnect()` as the top-level entry point. -/
def wsReconnect (env : Nat → AttemptOutcome) (fuel k : Nat) (s : ConnState) : ConnResult :=
  reconnectStep s (initAttempt env fuel k)

/-! ### Heap model for object aliasing

`orderCache` stores references to mutable order objects, and
`getOrders` returns `Array.from(orderCache.values())`: a fresh array
whose elements are the same references. The `OrderFilled` handler
mutates the object in place (`order.status = 'Filled'`). `HeapCache`
makes this explicit: `store` is the heap (a reference is an index into
it) and `entries` maps order ids to references. -/

structure HeapCache where
  store : List OrderRecord
  entries : List (Nat × Nat)
deriving DecidableEq, Repr

/-- Read the record objects a list of references points at. -/
def derefAll (store : List OrderRecord) (refs : List Nat) : List OrderRecord :=
  refs.filterMap (fun r => store.get? r)

/-- `getOrders` in the heap model: the returned array is a fresh list of
the same references; the optional status filter reads each object's
current status through its reference. -/
def getOrdersRefs (hc : HeapCache) (filterStatus : Option OrderStatus) : List Nat :=
  let refs := hc.entries.map (fun p => p.2)
  match filterStatus with
  | some st =>
      refs.filter (fun r =>
        match hc.store.get? r with
        | some o => o.status = st
        | none => false)
  | none => refs

/-- The `OrderFilled` handler in the heap model: `order.status =
'Filled'` mutates the stored object in place, then `orderCache.set`
rebinds the id to the same reference. -/
def handleOrderFilledRef (hc : HeapCache) (orderId : Nat) : HeapCache × List Published :=
  match mapGet hc.entries orderId with
  | none => (hc, [])
  | some ref =>
      match hc.store.get? ref with
      | none => (hc, [])
      | some order =>
          let updated := { order with status := OrderStatus.Filled }
          ({ store := hc.store.set ref updated,
             entries := mapSet hc.entries orderId ref },
           [Published.orderFilled updated])

/-- The `OrderCreated` handler in the heap model: the event handler
allocates a fresh record object and binds the id to it. -/
def handleOrderCreatedRef (hc : HeapCache) (a : CreatedArgs) : HeapCache × List Published :=
  let orderData : OrderRecord :=
    { id := a.orderId, maker := a.maker, taker := a.taker,
      sellToken := a.sellToken, sellAmount := a.sellAmount,
      buyToken := a.buyToken, buyAmount := a.buyAmount,
      timestamp := a.timestamp, orderCreationFee := a.fee,
      status := OrderStatus.Active, tries := none }
  ({ store := hc.store ++ [orderData],
     entries := mapSet hc.entries a.orderId hc.store.length },
   [Published.orderCreated orderData])

/-- `removeOrder` in the heap model: `orderCache.delete` drops the
id-to-reference entry and leaves the heap objects untouched. -/
def removeOrderRef (hc : HeapCache) (orderId : Nat) : HeapCache :=
  { hc with entries := mapDelete hc.entries orderId }

/-! ### Map lemmas -/

lemma mapGet_mapSet {κ α : Type} [DecidableEq κ] (c : List (κ × α)) (k i : κ) (v : α) :
    mapGet (mapSet c k v) i = if k = i then some v else mapGet c i := by
  induction c with
  | nil => simp only [mapSet, mapGet]
  | cons p rest ih =>
      obtain ⟨k0, v0⟩ := p
      by_cases h0 : k0 = k
      · subst h0
        simp only [mapSet, if_pos rfl, mapGet]
        by_cases h : k0 = i <;> simp [h]
      · simp only [mapSet, if_neg h0, mapGet, ih]
        by_cases h1 : k0 = i
        · subst h1
          rw [if_pos rfl, if_neg (fun h => h0 h.symm), if_pos rfl]
        · rw [if_neg h1, if_neg h1]

lemma mapDelete_absent {κ α : Type} [DecidableEq κ] (c : List (κ × α)) (k : κ)
    (h : mapGet c k = none) : mapDelete c k = c := by
  induction c with
  | nil => rfl
  | cons p rest ih =>
      obtain ⟨k0, v0⟩ := p
      simp only [mapGet] at h
      by_cases h0 : k0 = k
      · rw [if_pos h0] at h; cases h
      · rw [if_neg h0] at h
        simp only [mapDelete, if_neg h0, ih h]

lemma foldl_mapDelete_absent (ids : List Nat) (c : Cache)
    (h : ∀ j ∈ ids, mapGet c j = none) : ids.foldl mapDelete c = c := by
  induction ids with
  | nil => rfl
  | cons j rest ih =>
      have hc : mapDelete c j = c := mapDelete_absent c j (h j (by simp))
      simp only [List.foldl_cons, hc]
      exact ih (fun x hx => h x (by simp [hx]))

/-! ### Claims C4, C5, C7, C9, C10, C2 -/

/-- Claim C4: `checkCleanupEligibility` returns the eligibility boolean
(true exactly when `now - timestamp` strictly exceeds the fixed 14-day
window) together with the fetched record, and on a fetch failure returns
an ineligible result carrying the underlying error instead of raising. -/
theorem claim4_cleanup_eligibility :
    totalExpiry = 1209600
    ∧ ∀ (fetch : Nat → Except String ChainOrder) (currentTime orderId : Nat),
      (∀ o, fetch orderId = Except.ok o →
        checkCleanupEligibility fetch currentTime orderId =
          CleanupResult.success
            (decide (((currentTime : Int) - (o.timestamp : Int)) > (totalExpiry : Int))) o)
      ∧ (∀ e, fetch orderId = Except.error e →
          checkCleanupEligibility fetch currentTime orderId =
            CleanupResult.failure false e) := by
  refine ⟨rfl, fun fetch t i => ⟨?_, ?_⟩⟩
  · intro o h; simp [checkCleanupEligibility, h]
  · intro e h; simp [checkCleanupEligibility, h]

def chainFreshW : ChainOrder :=
  { maker := 7, taker := 0, sellToken := 1, sellAmount := 10, buyToken := 2,
    buyAmount := 20, timestamp := 1000, status := 0, orderCreationFee := 3, tries := 0 }

def fetchCleanupW : Nat → Except String ChainOrder := fun i =>
  if i = 0 then Except.ok chainFreshW else Except.error "rpc failure"

theorem claim4_witness :
    checkCleanupEligibility fetchCleanupW 2000000 0 =
      CleanupResult.success
        (decide (((2000000 : Nat) : Int) - ((chainFreshW.timestamp : Nat) : Int)
          > (totalExpiry : Int))) chainFreshW
    ∧ checkCleanupEligibility fetchCleanupW 2000000 1 =
        CleanupResult.failure false "rpc failure" :=
  ⟨((claim4_cleanup_eligibility.2 fetchCleanupW 2000000 0).1 chainFreshW rfl),
   ((claim4_cleanup_eligibility.2 fetchCleanupW 2000000 1).2 "rpc failure" rfl)⟩

/-- Claim C5: publishing an event invokes every currently-registered
callback for that event name; a throwing callback's error is caught and
logged (carried in the invocation log, never propagated — the publisher
returns normally in all cases) and later callbacks still run; with no
subscribers, publishing is a silent no-op. -/
theorem claim5_subscriber_isolation :
    ∀ (α : Type) (subscribers : List (String × List (Callback α)))
      (eventName : String) (data : α),
      (∀ cbs, mapGet subscribers eventName = some cbs →
        notifySubscribers subscribers eventName data =
          cbs.map (fun cb => (cb.id, catchResult cb data)))
      ∧ (mapGet subscribers eventName = none →
          notifySubscribers subscribers eventName data = [])
      ∧ (∀ (cb1 cb2 : Callback α) (e : String), cb1.run data = Except.error e →
          notifySubscribers [(eventName, [cb1, cb2])] eventName data =
            [(cb1.id, some e), (cb2.id, catchResult cb2 data)]) := by
  intro α subs name data
  refine ⟨?_, ?_, ?_⟩
  · intro cbs h; simp [notifySubscribers, h]
  · intro h; simp [notifySubscribers, h]
  · intro cb1 cb2 e h
    simp [notifySubscribers, mapGet, catchResult, h]

def cbThrowW : Callback Nat := { id := 1, run := fun _ => Except.error "subscriber boom" }

def cbOkW : Callback Nat := { id := 2, run := fun _ => Except.ok () }

theorem claim5_witness :
    notifySubscribers [("OrderCreated", [cbThrowW, cbOkW])] "OrderCreated" (0 : Nat) =
      [(cbThrowW.id, some "subscriber boom"), (cbOkW.id, catchResult cbOkW 0)] :=
  (claim5_subscriber_isolation Nat [("OrderCreated", [cbThrowW, cbOkW])]
    "OrderCreated" 0).2.2 cbThrowW cbOkW "subscriber boom" rfl

/-- Claim C7: for an id absent from the cache, the `OrderFilled` and
`OrderCanceled` handlers leave the cache unchanged and publish nothing
(the notification fires only when the record was present), and
`removeOrder` / `removeOrders` leave the cache unchanged; none of these
raises. -/
theorem claim7_absent_id_tolerance :
    ∀ (c : Cache) (orderId : Nat) (ids : List Nat),
      mapGet c orderId = none → (∀ j ∈ ids, mapGet c j = none) →
      handleOrderFilled c orderId = (c, [])
      ∧ handleOrderCanceled c orderId = (c, [])
      ∧ removeOrder c orderId = c
      ∧ (removeOrders c (some ids)).1 = c := by
  intro c i ids h hids
  refine ⟨?_, ?_, ?_, ?_⟩
  · simp [handleOrderFilled, h]
  · simp [handleOrderCanceled, h]
  · exact mapDelete_absent c i h
  · simp [removeOrders, foldl_mapDelete_absent ids c hids]

def residentRecordW : OrderRecord :=
  { id := 1, maker := 9, taker := 0, sellToken := 1, sellAmount := 5, buyToken := 2,
    buyAmount := 6, timestamp := 50, orderCreationFee := 1,
    status := OrderStatus.Active, tries := none }

theorem claim7_witness :
    handleOrderFilled [(1, residentRecordW)] 2 = ([(1, residentRecordW)], [])
    ∧ handleOrderCanceled [(1, residentRecordW)] 2 = ([(1, residentRecordW)], [])
    ∧ removeOrder [(1, residentRecordW)] 2 = [(1, residentRecordW)]
    ∧ (removeOrders [(1, residentRecordW)] (some [2, 3])).1 = [(1, residentRecordW)] :=
  claim7_absent_id_tolerance [(1, residentRecordW)] 2 [2, 3] (by decide) (by decide)

/-- Claim C10: calling `initialize` again after a successful completion
(the `isInitialized` flag set) returns `true` immediately, leaving the
cache, the subscriber registry and the reconnect-attempt counter
unchanged, running no sync and publishing nothing. -/
theorem claim10_reinit_noop :
    ∀ (env : Nat → AttemptOutcome) (fuel k : Nat) (s : ConnState),
      s.isInitialized = true → initAttempt env fuel k s = (true, [], [], s) := by
  intro env fuel k s h
  cases fuel <;> simp [initAttempt, initStep, h]

def envFailW : Nat → AttemptOutcome := fun _ => AttemptOutcome.connectFail

def sDoneW : ConnState :=
  { reconnectAttempts := 2, maxReconnectAttempts := 5, reconnectDelay := 1000,
    orderCache := [(1, residentRecordW)], subscribers := [("OrderCreated", [4])],
    isInitialized := true }

theorem claim10_witness : initAttempt envFailW 9 0 sDoneW = (true, [], [], sDoneW) :=
  claim10_reinit_noop envFailW 9 0 sDoneW rfl

/-- Claim C9: once the attempt counter has reached the maximum,
`reconnect` gives up immediately — no delay is awaited, nothing is
published, the state (including the counter) is untouched and the
boolean `false` is returned; `initialize`, whose catch path returns
`reconnect()`'s value, then also returns `false` without raising. -/
theorem claim9_exhausted_retries :
    ∀ (env : Nat → AttemptOutcome) (fuel k : Nat) (s : ConnState),
      s.reconnectAttempts ≥ s.maxReconnectAttempts →
      wsReconnect env fuel k s = (false, [], [], s)
      ∧ (s.isInitialized = false → env k = AttemptOutcome.connectFail →
          initAttempt env fuel k s = (false, [], [], s)) := by
  intro env fuel k s hmax
  constructor
  · unfold wsReconnect reconnectStep
    rw [if_pos hmax]
  · intro hinit henv
    cases fuel with
    | zero => simp [initAttempt, initStep, hinit, henv]
    | succ fuel => simp [initAttempt, initStep, reconnectStep, hinit, henv, hmax]

def sExhaustedW : ConnState :=
  { reconnectAttempts := 5, maxReconnectAttempts := 5, reconnectDelay := 1000,
    orderCache := [], subscribers := [], isInitialized := false }

theorem claim9_witness :
    wsReconnect envFailW 2 0 sExhaustedW = (false, [], [], sExhaustedW)
    ∧ initAttempt envFailW 2 0 sExhaustedW = (false, [], [], sExhaustedW) := by
  have h := claim9_exhausted_retries envFailW 2 0 sExhaustedW (by decide)
  exact ⟨h.1, h.2 rfl rfl⟩

lemma initAttempt_reset (env : Nat → AttemptOutcome) :
    ∀ fuel k (s : ConnState), s.isInitialized = false →
      (initAttempt env fuel k s).1 = true →
      ((initAttempt env fuel k s).2.2.2).reconnectAttempts = 0 := by
  intro fuel
  induction fuel with
  | zero =>
      intro k s hinit htrue
      simp only [initAttempt, initStep, hinit, Bool.false_eq_true, if_false] at htrue ⊢
      rcases henv : env k with _ | ⟨outerOk, bound?, fetch⟩
      · simp only [henv] at htrue
        simp at htrue
      · simp [henv]
  | succ fuel ih =>
      intro k s hinit htrue
      simp only [initAttempt, initStep, hinit, Bool.false_eq_true, if_false] at htrue ⊢
      rcases henv : env k with _ | ⟨outerOk, bound?, fetch⟩
      · simp only [henv, reconnectStep] at htrue ⊢
        by_cases hmax : s.reconnectAttempts ≥ s.maxReconnectAttempts
        · rw [if_pos hmax] at htrue; simp at htrue
        · rw [if_neg hmax] at htrue ⊢
          exact ih (k + 1) _ hinit htrue
      · simp [henv]

/-- Claim C2: the delay awaited by reconnect attempt `n` (with
`n ≤ maxReconnectAttempts`) equals `reconnectDelay * 2 ^ (n - 1)`, and a
successful (non-short-circuited) completion of `initialize` leaves the
attempt counter reset to `0`. -/
theorem claim2_backoff_and_reset :
    (∀ (env : Nat → AttemptOutcome) (fuel k : Nat) (s : ConnState) (n : Nat),
        s.reconnectAttempts + 1 = n → n ≤ s.maxReconnectAttempts →
        ((wsReconnect env fuel k s).2.1).head? =
          some (s.reconnectDelay * 2 ^ (n - 1)))
    ∧ (∀ (env : Nat → AttemptOutcome) (fuel k : Nat) (s : ConnState),
        s.isInitialized = false → (initAttempt env fuel k s).1 = true →
        ((initAttempt env fuel k s).2.2.2).reconnectAttempts = 0) := by
  constructor
  · intro env fuel k s n hn hle
    subst hn
    unfold wsReconnect reconnectStep
    rw [if_neg (by omega)]
    simp
  · exact fun env fuel k s => initAttempt_reset env fuel k s

def envOkW : Nat → AttemptOutcome :=
  fun _ => AttemptOutcome.connectOk true none (fun _ => none)

def sFreshW : ConnState :=
  { reconnectAttempts := 0, maxReconnectAttempts := 5, reconnectDelay := 1000,
    orderCache := [], subscribers := [], isInitialized := false }

theorem claim2_witness :
    ((wsReconnect envOkW 3 0 sFreshW).2.1).head? = some (1000 * 2 ^ 0)
    ∧ ((initAttempt envOkW 3 0 sFreshW).2.2.2).reconnectAttempts = 0 :=
  ⟨claim2_backoff_and_reset.1 envOkW 3 0 sFreshW 1 rfl (by decide),
   claim2_backoff_and_reset.2 envOkW 3 0 sFreshW rfl rfl⟩

/-! ### Full-resync lemmas and claims C3, C6 -/

lemma syncBuild_succ (fetch : Nat → Option ChainOrder) (n : Nat) :
    syncBuild fetch (n + 1) = syncStep fetch (syncBuild fetch n) n := by
  simp [syncBuild, List.range_succ]

lemma syncBuild_get_none (fetch : Nat → Option ChainOrder) :
    ∀ n i, n ≤ i → mapGet (syncBuild fetch n) i = none := by
  intro n
  induction n with
  | zero => intro i _; rfl
  | succ n ih =>
      intro i hi
      rw [syncBuild_succ]
      unfold syncStep
      cases hf : fetch n with
      | none => exact ih i (by omega)
      | some o =>
          dsimp only
          by_cases hcond : o.maker ≠ 0 ∧ o.status = 0
          · rw [if_pos hcond, mapGet_mapSet, if_neg (by omega)]
            exact ih i (by omega)
          · rw [if_neg hcond]
            exact ih i (by omega)

lemma syncBuild_get (fetch : Nat → Option ChainOrder) :
    ∀ n i r, mapGet (syncBuild fetch n) i = some r ↔
      i < n ∧ ∃ o, fetch i = some o ∧ o.maker ≠ 0 ∧ o.status = 0
        ∧ r = chainToOrderData i o := by
  intro n
  induction n with
  | zero =>
      intro i r
      simp [syncBuild, mapGet]
  | succ n ih =>
      intro i r
      rw [syncBuild_succ]
      unfold syncStep
      cases hf : fetch n with
      | none =>
          rw [ih]
          constructor
          · rintro ⟨h1, ho⟩
            exact ⟨by omega, ho⟩
          · rintro ⟨h1, o, ho, hrest⟩
            refine ⟨?_, o, ho, hrest⟩
            rcases Nat.lt_succ_iff_lt_or_eq.mp h1 with h | h
            · exact h
            · subst h; rw [hf] at ho; cases ho
      | some o0 =>
          dsimp only
          by_cases hcond : o0.maker ≠ 0 ∧ o0.status = 0
          · rw [if_pos hcond, mapGet_mapSet]
            by_cases hni : n = i
            · subst hni
              rw [if_pos rfl]
              constructor
              · intro h
                injection h with h
                exact ⟨Nat.lt_succ_self n, o0, hf, hcond.1, hcond.2, h.symm⟩
              · rintro ⟨_, o, ho, hm, hs, hr⟩
                rw [hf] at ho
                injection ho with ho
                subst ho
                rw [hr]
            · rw [if_neg hni, ih]
              constructor
              · rintro ⟨h1, ho⟩
                exact ⟨by omega, ho⟩
              · rintro ⟨h1, o, ho, hrest⟩
                refine ⟨?_, o, ho, hrest⟩
                rcases Nat.lt_succ_iff_lt_or_eq.mp h1 with h | h
                · exact h
                · exact absurd h.symm hni
          · rw [if_neg hcond, ih]
            constructor
            · rintro ⟨h1, ho⟩
              exact ⟨by omega, ho⟩
            · rintro ⟨h1, o, ho, hm, hs, hr⟩
              refine ⟨?_, o, ho, hm, hs, hr⟩
              rcases Nat.lt_succ_iff_lt_or_eq.mp h1 with h | h
              · exact h
              · subst h
                rw [hf] at ho
                injection ho with ho
                subst ho
                exact absurd ⟨hm, hs⟩ hcond

/-- The scenario chain order for id 0: Active, non-zero maker. -/
def chainActiveW : ChainOrder :=
  { maker := 7, taker := 0, sellToken := 1, sellAmount := 10, buyToken := 2,
    buyAmount := 20, timestamp := 100, status := 0, orderCreationFee := 3, tries := 0 }

/-- The scenario chain order for id 2: Active but maker is the zero
address. -/
def chainZeroMakerW : ChainOrder :=
  { maker := 0, taker := 0, sellToken := 1, sellAmount := 10, buyToken := 2,
    buyAmount := 20, timestamp := 100, status := 0, orderCreationFee := 3, tries := 0 }

/-- The scenario contract: id 0 fetches an Active non-zero-maker order,
id 1's fetch fails, id 2 fetches a zero-maker order. -/
def scenarioFetch : Nat → Option ChainOrder := fun i =>
  if i = 0 then some chainActiveW else if i = 2 then some chainZeroMakerW else none

/-- Claim C3: the full resync clears the cache (the rebuilt set is
independent of the prior cache) and holds exactly the records whose
per-id fetch succeeded with a non-zero maker and Active (`0`) status;
in the bound-3 scenario with id 1 failing and id 2 zero-maker, the
rebuilt cache holds exactly the entry for id 0. -/
theorem claim3_full_resync :
    (∀ (bound? : Option Nat) (fetch : Nat → Option ChainOrder) (c : Cache)
        (i : Nat) (r : OrderRecord),
      mapGet (syncAllOrders true bound? fetch c).1 i = some r ↔
        i < bound?.getD 0 ∧ ∃ o, fetch i = some o ∧ o.maker ≠ 0 ∧ o.status = 0
          ∧ r = chainToOrderData i o)
    ∧ (syncAllOrders true (some 3) scenarioFetch []).1 =
        [(0, chainToOrderData 0 chainActiveW)] := by
  constructor
  · intro bound? fetch c i r
    simp only [syncAllOrders, if_true]
    exact syncBuild_get fetch _ i r
  · decide

theorem claim3_witness :
    mapGet (syncAllOrders true (some 3) scenarioFetch []).1 0 =
      some (chainToOrderData 0 chainActiveW)
    ∧ mapGet (syncAllOrders true (some 3) scenarioFetch []).1 1 = none
    ∧ mapGet (syncAllOrders true (some 3) scenarioFetch []).1 2 = none :=
  ⟨(claim3_full_resync.1 (some 3) scenarioFetch [] 0 (chainToOrderData 0 chainActiveW)).mpr
      ⟨by decide, chainActiveW, rfl, by decide, rfl, rfl⟩,
   by decide, by decide⟩

/-- Claim C6: every full sync publishes exactly one `orderSyncComplete`
event, and its payload is the current cache snapshot — also when the
rebuilt set is empty, and also when the bulk sync fails, in which case
the cache has been cleared and the published snapshot is empty. -/
theorem claim6_sync_complete :
    ∀ (outerOk : Bool) (bound? : Option Nat) (fetch : Nat → Option ChainOrder)
      (c : Cache),
      (syncAllOrders outerOk bound? fetch c).2 =
        [Published.syncComplete (syncAllOrders outerOk bound? fetch c).1]
      ∧ (outerOk = false → (syncAllOrders outerOk bound? fetch c).1 = []) := by
  intro outerOk bound? fetch c
  cases outerOk <;> simp [syncAllOrders]

theorem claim6_witness :
    (syncAllOrders false (some 3) scenarioFetch [(1, residentRecordW)]).2 =
      [Published.syncComplete
        (syncAllOrders false (some 3) scenarioFetch [(1, residentRecordW)]).1]
    ∧ (syncAllOrders false (some 3) scenarioFetch [(1, residentRecordW)]).1 = [] := by
  have h := claim6_sync_complete false (some 3) scenarioFetch [(1, residentRecordW)]
  exact ⟨h.1, h.2 rfl⟩

/-! ### Claim C1: status regression through the OrderCreated handler -/

/-- A record already recorded as terminal (`Filled`) for id 5. -/
def filledRecordW : OrderRecord :=
  { id := 5, maker := 7, taker := 0, sellToken := 1, sellAmount := 10, buyToken := 2,
    buyAmount := 20, timestamp := 1000, orderCreationFee := 3,
    status := OrderStatus.Filled, tries := none }

/-- An `OrderCreated` event carrying the same id 5. -/
def createdArgsW : CreatedArgs :=
  { orderId := 5, maker := 7, taker := 0, sellToken := 1, sellAmount := 10,
    buyToken := 2, buyAmount := 20, timestamp := 1001, fee := 3 }

/-- Claim C1 counterexample: with id 5 cached as `Filled`, the
`OrderCreated` handler (an unconditional `orderCache.set` of a fresh
`Active` record) leaves the cache holding id 5 with status `Active` —
the incremental path does regress a terminal status to Active, contrary
to the claim. -/
theorem claim1_counterexample :
    (mapGet (handleOrderCreated [(5, filledRecordW)] createdArgsW).1 5).map
        (fun r => r.status) = some OrderStatus.Active := by
  decide

lemma mapGet_after_set {c : Cache} {oid tid : Nat} {v r2 : OrderRecord}
    (h2 : mapGet (mapSet c oid v) tid = some r2) :
    r2 = v ∨ mapGet c tid = some r2 := by
  rw [mapGet_mapSet] at h2
  by_cases he : oid = tid
  · rw [if_pos he] at h2
    injection h2 with h2
    exact Or.inl h2.symm
  · rw [if_neg he] at h2
    exact Or.inr h2

/-- Claim C1 amended: the `OrderFilled` and `OrderCanceled` handlers
never set a terminally-recorded (`Filled`/`Canceled`) status back to
`Active`; the `OrderCreated` handler, however, overwrites
unconditionally with a fresh `Active` record, so the no-regression
guarantee does not extend to it. -/
theorem claim1_amended_no_regression :
    ∀ (c : Cache) (orderId trackedId : Nat) (r : OrderRecord),
      mapGet c trackedId = some r → r.status ≠ OrderStatus.Active →
      (∀ r2, mapGet (handleOrderFilled c orderId).1 trackedId = some r2 →
        r2.status ≠ OrderStatus.Active)
      ∧ (∀ r2, mapGet (handleOrderCanceled c orderId).1 trackedId = some r2 →
        r2.status ≠ OrderStatus.Active) := by
  intro c oid tid r hget hterm
  constructor
  · intro r2 h2
    unfold handleOrderFilled at h2
    cases hg : mapGet c oid with
    | none =>
        rw [hg] at h2
        dsimp only at h2
        rw [hget] at h2
        injection h2 with h2
        rw [← h2]
        exact hterm
    | some o =>
        rw [hg] at h2
        dsimp only at h2
        rcases mapGet_after_set h2 with h | h
        · rw [h]
          simp
        · rw [hget] at h
          injection h with h
          rw [← h]
          exact hterm
  · intro r2 h2
    unfold handleOrderCanceled at h2
    cases hg : mapGet c oid with
    | none =>
        rw [hg] at h2
        dsimp only at h2
        rw [hget] at h2
        injection h2 with h2
        rw [← h2]
        exact hterm
    | some o =>
        rw [hg] at h2
        dsimp only at h2
        rcases mapGet_after_set h2 with h | h
        · rw [h]
          simp
        · rw [hget] at h
          injection h with h
          rw [← h]
          exact hterm

theorem claim1_amended_witness :
    ({ filledRecordW with status := OrderStatus.Filled } : OrderRecord).status ≠
        OrderStatus.Active
    ∧ ({ filledRecordW with status := OrderStatus.Canceled } : OrderRecord).status ≠
        OrderStatus.Active :=
  ⟨(claim1_amended_no_regression [(5, filledRecordW)] 5 5 filledRecordW rfl
      (by decide)).1 { filledRecordW with status := OrderStatus.Filled } (by decide),
   (claim1_amended_no_regression [(5, filledRecordW)] 5 5 filledRecordW rfl
      (by decide)).2 { filledRecordW with status := OrderStatus.Canceled } (by decide)⟩

/-! ### Claim C8: snapshots and object aliasing -/

/-- An `Active` record for the aliasing scenario. -/
def activeRecordW : OrderRecord :=
  { id := 5, maker := 7, taker := 0, sellToken := 1, sellAmount := 10, buyToken := 2,
    buyAmount := 20, timestamp := 1000, orderCreationFee := 3,
    status := OrderStatus.Active, tries := none }

/-- The heap cache holding that one record, id 5 bound to heap cell 0. -/
def heapW : HeapCache := { store := [activeRecordW], entries := [(5, 0)] }

/-- Claim C8 counterexample: take the snapshot `getOrders()` returns,
then apply the `OrderFilled` handler, which mutates the shared record
object in place. Read through the previously returned snapshot, the
record now differs (its status became `Filled`): the snapshot is only a
shallow copy, so in-place status transitions do change the records of a
previously returned snapshot. -/
theorem claim8_counterexample :
    derefAll ((handleOrderFilledRef heapW 5).1).store (getOrdersRefs heapW none) ≠
      derefAll heapW.store (getOrdersRefs heapW none) := by
  decide

lemma derefAll_append_valid (store : List OrderRecord) (x : OrderRecord) :
    ∀ refs : List Nat, (∀ rf ∈ refs, rf < store.length) →
      derefAll (store ++ [x]) refs = derefAll store refs := by
  intro refs
  induction refs with
  | nil => intro _; rfl
  | cons rf rest ih =>
      intro h
      have hlt : rf < store.length := h rf (by simp)
      simp only [derefAll, List.filterMap_cons] at *
      rw [List.get?_append hlt, ih (fun r2 hr => h r2 (by simp [hr]))]

lemma derefAll_filter_status (store : List OrderRecord) (st : OrderStatus) :
    ∀ refs : List Nat, (∀ rf ∈ refs, rf < store.length) →
      derefAll store (refs.filter (fun rf =>
        match store.get? rf with
        | some o => o.status = st
        | none => false))
      = (derefAll store refs).filter (fun o => o.status = st) := by
  intro refs
  induction refs with
  | nil => intro _; rfl
  | cons rf rest ih =>
      intro h
      have hlt : rf < store.length := h rf (by simp)
      have ihr := ih (fun r2 hr => h r2 (by simp [hr]))
      obtain ⟨o, ho⟩ : ∃ o, store.get? rf = some o := by
        cases hg : store.get? rf with
        | none =>
            rw [List.get?_eq_none] at hg
            omega
        | some o => exact ⟨o, rfl⟩
      simp only [derefAll] at ihr ⊢
      simp only [List.get?_eq_getElem?] at ihr ho ⊢
      by_cases hs : o.status = st
      · simp [List.filter_cons, List.filterMap_cons, ho, hs, ihr]
      · simp [List.filter_cons, List.filterMap_cons, ho, hs, ihr]

/-- Claim C8 amended: `getOrders` returns a fresh sequence (a shallow
copy): creating a new order (which allocates a fresh record object) or
removing a cache entry leaves the records of a previously returned
snapshot unchanged, and the filtered query selects exactly the records
whose status equals the filter at snapshot time; but, as the
counterexample shows, in-place status transitions applied by the
incremental handlers to records shared with the snapshot remain visible
through it. -/
theorem claim8_amended_shallow_copy :
    ∀ (hc : HeapCache) (a : CreatedArgs) (orderId : Nat) (st : OrderStatus),
      (∀ rf ∈ hc.entries.map (fun p => p.2), rf < hc.store.length) →
      derefAll ((handleOrderCreatedRef hc a).1.store) (getOrdersRefs hc none)
          = derefAll hc.store (getOrdersRefs hc none)
      ∧ derefAll ((removeOrderRef hc orderId).store) (getOrdersRefs hc none)
          = derefAll hc.store (getOrdersRefs hc none)
      ∧ derefAll hc.store (getOrdersRefs hc (some st))
          = (derefAll hc.store (getOrdersRefs hc none)).filter
              (fun o => o.status = st) := by
  intro hc a oid st hvalid
  refine ⟨?_, rfl, ?_⟩
  · unfold handleOrderCreatedRef getOrdersRefs
    exact derefAll_append_valid hc.store _ _ hvalid
  · unfold getOrdersRefs
    exact derefAll_filter_status hc.store st _ hvalid

theorem claim8_amended_witness :
    derefAll ((handleOrderCreatedRef heapW createdArgsW).1.store)
        (getOrdersRefs heapW none)
      = derefAll heapW.store (getOrdersRefs heapW none)
    ∧ derefAll ((removeOrderRef heapW 5).store) (getOrdersRefs heapW none)
      = derefAll heapW.store (getOrdersRefs heapW none)
    ∧ derefAll heapW.store (getOrdersRefs heapW (some OrderStatus.Active))
      = (derefAll heapW.store (getOrdersRefs heapW none)).filter
          (fun o => o.status = OrderStatus.Active) :=
  claim8_amended_shallow_copy heapW createdArgsW 5 OrderStatus.Active (by decide)

end LiberdusWS
